import Mathlib

/-!
Verification of the MERGE/CPTEC daily-precipitation pipeline
(src/app.py and src/utils.py).

The pipeline downloads hourly gridded precipitation files, normalizes the
longitude axis, aggregates the hourly grids into 12Z-anchored daily windows,
masks the daily field to capital-city polygons, extracts one mean time
series per capital and assembles them into a wide table.

Modelling conventions used throughout this file:
- timestamps are integers counting whole hours since an epoch placed at
  2025-01-01T00:00Z (so 36 is 2025-01-02T12:00Z, 37 is 2025-01-02T13:00Z,
  60 is 2025-01-03T12:00Z); flooring a timestamp to its day is integer
  floor-division by 24;
- scalar cell values and geographic coordinates are rationals;
- a missing / NaN cell is `Option.none`;
- the in-place mutations performed by rioxarray (`set_spatial_dims`,
  `write_crs` with inplace=True) are made explicit: `mask_data` returns
  both the clipped output and the post-mutation state of its input;
- the file system seen by the downloader is an association list from
  path to file content, where a write conses a new binding (lookup
  returns the most recent binding, i.e. an overwrite).
-/

/-! ## Temporal aggregation (utils.diary_prec_12z) -/

/-- Window key of an hourly timestamp, from utils.py line 103:
ref_time = floor(valid_time - 12h, one day) + 12h, on hours-since-epoch. -/
def refTime (t : Int) : Int :=
  (t - 12).fdiv 24 * 24 + 12

/-- Insert a key into an ascending list, keeping it ascending. -/
def insertSorted (x : Int) : List Int → List Int
  | [] => [x]
  | y :: ys => if x ≤ y then x :: y :: ys else y :: insertSorted x ys

/-- Sort a list of keys ascending, as groupby sorts its group labels. -/
def sortInts (l : List Int) : List Int :=
  l.foldr insertSorted []

/-- Drop duplicate keys, keeping first occurrences. -/
def dedupKeys (l : List Int) : List Int :=
  l.foldl (fun acc k => if k ∈ acc then acc else acc ++ [k]) []

/-- Element-wise sum of a group of equally shaped grids (xarray sum over
the grouped time dimension). -/
def sumGrids : List (List ℚ) → List ℚ
  | [] => []
  | g :: gs => gs.foldl (fun a b => a.zipWith (· + ·) b) g

/-- The ascending list of window keys present in an hourly collection. -/
def diaryKeys (ds : List (Int × List ℚ)) : List Int :=
  sortInts (dedupKeys (ds.map fun p => refTime p.1))

/-- Element-wise sum of the grids of all hours falling in window k. -/
def groupSum (ds : List (Int × List ℚ)) (k : Int) : List ℚ :=
  sumGrids ((ds.filter fun p => refTime p.1 == k).map Prod.snd)

/-- utils.diary_prec_12z: group the hourly grids by their 12Z-anchored
window key and sum each group element-wise; output keys ascending. -/
def diary_prec_12z (ds : List (Int × List ℚ)) : List (Int × List ℚ) :=
  (diaryKeys ds).map fun k => (k, groupSum ds k)

/-! ## Coordinate normalization (utils.fix_coordinates) -/

/-- A 2-D grid: a latitude axis, a longitude axis, and one row of cell
values per latitude entry (one column per longitude entry). -/
structure Grid where
  latitude : List ℚ
  longitude : List ℚ
  prec : List (List ℚ)

/-- Python float modulo for a positive modulus: x % m = x - m * floor (x/m),
always in [0, m). `Rat.floor` is used so the value is computable. -/
def pymod (x m : ℚ) : ℚ :=
  x - m * (Rat.floor (x / m) : ℚ)

/-- The longitude remap of utils.py line 79: ((lon + 180) % 360) - 180. -/
def remapLon (l : ℚ) : ℚ :=
  pymod (l + 180) 360 - 180

/-- Comparison of axis entries by their coordinate key. -/
def keyLE {α : Type} (a b : ℚ × α) : Prop :=
  a.1 ≤ b.1

instance {α : Type} : DecidableRel (@keyLE α) :=
  fun a b => inferInstanceAs (Decidable (a.1 ≤ b.1))

instance {α : Type} : IsTotal (ℚ × α) keyLE :=
  ⟨fun a b => le_total a.1 b.1⟩

instance {α : Type} : IsTrans (ℚ × α) keyLE :=
  ⟨fun _ _ _ h h' => le_trans h h'⟩

/-- Stable ascending sort of (coordinate, payload) pairs, the model of
xarray sortby along one axis. -/
def sortPairs {α : Type} (l : List (ℚ × α)) : List (ℚ × α) :=
  List.insertionSort keyLE l

/-- The longitude axis after the conditional remap of utils.py lines 77-79:
remapped only when some longitude exceeds 180, and then remapped everywhere. -/
def lonAfterRemap (g : Grid) : List ℚ :=
  if g.longitude.any (fun l => decide (180 < l)) then g.longitude.map remapLon
  else g.longitude

/-- utils.fix_coordinates: conditionally remap the longitudes, then sort the
longitude axis (carrying the data columns) and the latitude axis (carrying
the data rows) ascending. -/
def fix_coordinates (g : Grid) : Grid :=
  let cols := sortPairs ((lonAfterRemap g).zip g.prec.transpose)
  let rows := sortPairs (g.latitude.zip (cols.map Prod.snd).transpose)
  { latitude := rows.map Prod.fst
    longitude := cols.map Prod.fst
    prec := rows.map Prod.snd }

/-! ## Capital resolution (utils.extract_capitals_from_shapefile) -/

/-- One row of the municipality boundary dataset: a state code column
(SIGLA_UF), a municipality name column (NM_MUN) and a polygon, modelled
as its characteristic function on (latitude, longitude). -/
structure Muni where
  sigla : String
  nm : String
  geom : ℚ → ℚ → Bool

/-- utils.extract_capitals_from_shapefile: keep exactly the rows whose state
code occurs in the capitals mapping and whose name equals the mapped name. -/
def extract_capitals_from_shapefile (gdf : List Muni)
    (capitals_dict : List (String × String)) : List Muni :=
  gdf.filter fun row =>
    match capitals_dict.lookup row.sigla with
    | some name => row.nm == name
    | none => false

/-! ## Spatial masking (utils.mask_data) -/

/-- The daily gridded field: a time axis of window keys, two spatial axes,
one (lat-row × lon-column) slice of optional cells per time entry, and the
CRS metadata that rioxarray reads and writes on the dataset. -/
structure DailyField where
  ref_time : List Int
  latitude : List ℚ
  longitude : List ℚ
  prec : List (List (List (Option ℚ)))
  crs : Option String

/-- rio.set_spatial_dims: records the axis names; on this model the axes
are fixed by the structure, so the dataset is returned unchanged. -/
def set_spatial_dims (ds : DailyField) : DailyField :=
  ds

/-- rio.write_crs("epsg:4326", inplace=True): writes the CRS metadata into
the dataset (the spatial_ref coordinate), mutating it in place. -/
def write_crs (ds : DailyField) : DailyField :=
  { ds with crs := some "epsg:4326" }

/-- A point is inside the mask when some polygon of the GeoDataFrame
contains it. -/
def inMask (geo : List Muni) (la lo : ℚ) : Bool :=
  geo.any fun r => r.geom la lo

/-- rio.clip: cells outside the mask become missing; with drop=true the
axes are additionally cut down to the entries that retain at least one
inside cell, with drop=false the full spatial extent is preserved. -/
def clip (ds : DailyField) (geo : List Muni) (drop : Bool) : DailyField :=
  let masked := ds.prec.map fun slice =>
    (ds.latitude.zip slice).map fun p =>
      (ds.longitude.zip p.2).map fun q =>
        if inMask geo p.1 q.1 then q.2 else none
  if drop then
    { ds with
      latitude := ds.latitude.filter fun la =>
        ds.longitude.any fun lo => inMask geo la lo
      longitude := ds.longitude.filter fun lo =>
        ds.latitude.any fun la => inMask geo la lo
      prec := masked.map fun slice =>
        ((ds.latitude.zip slice).filter fun p =>
            ds.longitude.any fun lo => inMask geo p.1 lo).map fun p =>
          ((ds.longitude.zip p.2).filter fun q =>
              ds.latitude.any fun la => inMask geo la q.1).map Prod.snd }
  else
    { ds with prec := masked }

/-- utils.mask_data: set the spatial dims and write the CRS in place, then
clip with drop=false. The first component is the clipped result, the second
is the post-mutation state of the input dataset. -/
def mask_data (ds : DailyField) (geo : List Muni) : DailyField × DailyField :=
  let ds1 := write_crs (set_spatial_dims ds)
  (clip ds1 geo false, ds1)

/-- The cell of a field at time index t, latitude index i, longitude
index j, when all three indices are in range. -/
def cellAt (ds : DailyField) (t i j : Nat) : Option (Option ℚ) :=
  (ds.prec[t]?.bind fun s => s[i]?).bind fun r => r[j]?

/-! ## Timeseries extraction (utils.extract_capitals_timeseries) -/

/-- Mean over both spatial dimensions with NaN skipped (xarray mean with
skipna): the mean of the present cells, or missing when none is present. -/
def spatialMean (slice : List (List (Option ℚ))) : Option ℚ :=
  match (slice.map fun row => row.filterMap id).flatten with
  | [] => none
  | v :: vs => some ((v :: vs).foldl (· + ·) 0 / ((v :: vs).length : ℚ))

/-- The wide output table: a row index of window keys and one value column
per capital, aligned with the index; a missing combination is none. -/
structure WideTable where
  index : List Int
  cols : List (String × List (Option ℚ))

/-- pd.concat(axis=1) with outer join: the row index is the ascending union
of all series keys and each column is realigned to it. -/
def concatOuter (cols : List (String × List (Int × ℚ))) : WideTable :=
  let idx := sortInts (dedupKeys ((cols.map fun c => c.2.map Prod.fst).flatten))
  { index := idx
    cols := cols.map fun c => (c.1, idx.map fun t => c.2.lookup t) }

/-- One iteration of the per-capital loop of utils.extract_capitals_timeseries:
filter the polygons to the current capital, mask the (threaded, mutated)
daily field, average spatially, drop missing windows, and append the column. -/
def extractStep (gdfCaps : List Muni)
    (acc : List (String × List (Int × ℚ)) × DailyField) (capital : String) :
    List (String × List (Int × ℚ)) × DailyField :=
  let msk := gdfCaps.filter fun r => r.nm == capital
  let pair := mask_data acc.2 msk
  let series := (pair.2.ref_time.zip pair.1.prec).filterMap fun p =>
    (spatialMean p.2).map fun m => (p.1, m)
  (acc.1 ++ [(capital, series)], pair.2)

/-- utils.extract_capitals_timeseries: loop over the capital names of the
resolved polygon set, collect one series per capital, and outer-join the
columns. The second component is the post-loop state of the daily field. -/
def extract_capitals_timeseries (ds0 : DailyField) (gdfCaps : List Muni) :
    WideTable × DailyField :=
  let res := (gdfCaps.map fun r => r.nm).foldl (extractStep gdfCaps) ([], ds0)
  (concatOuter res.1, res.2)

/-! ## Orchestration (src/app.py module body) -/

/-- Outcome of one pipeline run: whether the temporal aggregation step was
ever invoked, whether any output artifact was written (parquet and the
subsequent document-store insert), the daily aggregate when one was
produced, and the uncaught error that ended the run, if any. -/
structure RunResult where
  aggInvoked : Bool
  outputWritten : Bool
  daily : Option (List (Int × List ℚ))
  failure : Option String

/-- app.py lines 75-141: the per-hour loop appends one hourly grid per
successful fetch+parse (a failed hour is caught, logged and skipped, here a
none entry). When no hour succeeded, the name ds_all is never assigned,
so evaluating the argument of diary_prec_12z on line 121 raises NameError
before the aggregation is invoked and the run ends with the later output
steps never reached. Otherwise the run aggregates once and writes output. -/
def runPipeline (fetched : List (Option (Int × List ℚ))) : RunResult :=
  let datasets := fetched.filterMap id
  if datasets.isEmpty then
    { aggInvoked := false
      outputWritten := false
      daily := none
      failure := some "NameError: name ds_all is not defined" }
  else
    let ds_all := datasets
    let ds_daily := diary_prec_12z ds_all
    { aggInvoked := true
      outputWritten := true
      daily := some ds_daily
      failure := none }

/-! ## Download (utils.download_merge_cptec and the per-hour loop) -/

/-- The local target path of one hour's file, from utils.py line 44. -/
def mergeFilename (date : String) : String :=
  "./merge_data/MERGE_CPTEC_" ++ date ++ ".grib2"

/-- utils.download_merge_cptec over an explicit file system: on HTTP 200
the body is written to the target path (a new binding shadows any older
one); on any other status the function only prints, touches no file, and
still returns the target path. No status makes it raise. -/
def download_merge_cptec (fs : List (String × String)) (date : String)
    (status : Nat) (body : String) : List (String × String) × String :=
  let filename := mergeFilename date
  if status = 200 then ((filename, body) :: fs, filename)
  else (fs, filename)

/-- One iteration of the per-hour loop of app.py lines 83-107: download,
then open the file at the rebuilt path and parse it (none when the file is
absent or unparsable, which the loop catches and skips). -/
def processHour (fs : List (String × String)) (date : String) (status : Nat)
    (body : String) (parse : String → Option (Int × List ℚ)) :
    List (String × String) × Option (Int × List ℚ) :=
  let r := download_merge_cptec fs date status body
  match r.1.lookup r.2 with
  | none => (r.1, none)
  | some content => (r.1, parse content)

/-! ## Concrete scenario inputs -/

/-- The 24 hourly timestamps 2025-01-02T13:00Z through 2025-01-03T12:00Z,
as hours since the 2025-01-01T00:00Z epoch. -/
def c2Hours : List Int :=
  (List.range 24).map fun i => 37 + (i : Int)

/-- The spec scenario input: those 24 hourly grids, every cell equal to 1. -/
def c2Input : List (Int × List ℚ) :=
  c2Hours.map fun t => (t, [1, 1])

/-- The shifted range 2025-01-02T12:00Z through 2025-01-03T11:00Z,
every cell equal to 1. -/
def c2ShiftedInput : List (Int × List ℚ) :=
  (List.range 24).map fun i => ((36 + (i : Int)), [1, 1])

/-- A file system holding the target file of hour 2025-01-02T00Z left over
from a previous run. -/
def staleFS : List (String × String) :=
  [("./merge_data/MERGE_CPTEC_2025010200.grib2", "stale-bytes")]

/-- A two-row boundary dataset: the SP capital with its correct name, and a
RJ municipality that is not the capital name the mapping expects. -/
def gdf8 : List Muni :=
  [⟨"SP", "Sao Paulo", fun _ _ => true⟩, ⟨"RJ", "Niteroi", fun _ _ => true⟩]

/-- The region-to-capital mapping used with gdf8: SP matches exactly, RJ
maps to a name absent from the dataset. -/
def dict8 : List (String × String) :=
  [("SP", "Sao Paulo"), ("RJ", "Rio de Janeiro")]

/-- A one-cell daily field carrying no CRS metadata yet. -/
def ds4 : DailyField :=
  { ref_time := [36], latitude := [0], longitude := [0],
    prec := [[[some 2]]], crs := none }

/-- A single all-containing polygon row. -/
def geo4 : List Muni :=
  [⟨"SP", "Sao Paulo", fun _ _ => true⟩]

/-- A polygon covering exactly the first quadrant. -/
def geo9 : List Muni :=
  [⟨"DF", "Brasilia", fun la lo => decide (0 ≤ la) && decide (0 ≤ lo)⟩]

/-- A one-day 2 x 2 daily field straddling the geo9 polygon boundary. -/
def ds9 : DailyField :=
  { ref_time := [36], latitude := [-1, 1], longitude := [-1, 1],
    prec := [[[some 1, some 2], [some 3, some 4]]], crs := some "epsg:4326" }

/-- A grid whose longitude axis holds the boundary value 180 twice: no
value exceeds 180, so the remap never fires. -/
def cexGrid : Grid :=
  { latitude := [0], longitude := [180, 180], prec := [[1, 2]] }

/-- A grid with longitudes from both halves of [0, 360) in scrambled order
and descending latitudes. -/
def g5 : Grid :=
  { latitude := [5, -5], longitude := [350, 10, 200], prec := [[1, 2, 3], [4, 5, 6]] }

/-! ## Helper lemmas -/

theorem refTime_ediv (t : Int) : refTime t = (t - 12) / 24 * 24 + 12 := by
  unfold refTime
  rw [Int.fdiv_eq_ediv (t - 12) (by norm_num)]

/-! ## C6: window assignment -/

/-- C6: every hourly timestamp t lies in exactly one accumulation window
whose key is at 12:00 (key mod 24 = 12 on the hour scale) and spans the 24
hours from the key; the aggregator's computed key refTime t is in that
window, and keys of timestamps 24 hours apart are exactly 24 hours apart. -/
theorem refTime_unique_window (t : Int) :
    (∃! w : Int, w % 24 = 12 ∧ w ≤ t ∧ t < w + 24) ∧
    refTime t % 24 = 12 ∧ refTime t ≤ t ∧ t < refTime t + 24 ∧
    refTime (t + 24) = refTime t + 24 := by
  have h1 := refTime_ediv t
  have h2 := refTime_ediv (t + 24)
  constructor
  · refine ⟨refTime t, ⟨by omega, by omega, by omega⟩, ?_⟩
    intro y hy
    omega
  · omega

/-! ## C7: idempotence on a single 12Z-keyed record -/

/-- C7: the aggregator applied to a collection holding a single record whose
timestamp is already a 12:00 window key returns that record unchanged (the
sum of one element is that element). -/
theorem diary_single_12z (t : Int) (g : List ℚ) (h : t % 24 = 12) :
    diary_prec_12z [(t, g)] = [(t, g)] := by
  have ht : refTime t = t := by
    have := refTime_ediv t
    omega
  simp [diary_prec_12z, diaryKeys, dedupKeys, sortInts, insertSorted, groupSum,
    sumGrids, ht]

/-- Witness for C7 at the concrete 12Z-keyed record (36, [5]). -/
theorem diary_single_12z_witness :
    (36 : Int) % 24 = 12 ∧
    diary_prec_12z [((36 : Int), [(5 : ℚ)])] = [((36 : Int), [(5 : ℚ)])] :=
  ⟨by decide, diary_single_12z 36 [5] (by decide)⟩

/-! ## C2: the 24-hour scenario -/

/-- C2 counterexample: on the claimed input range 13:00 Jan 2 .. 12:00 Jan 3
(hours 37..60 since the epoch), the aggregator produces two output windows,
keyed 36 (2025-01-02T12:00Z, receiving the first 23 hours) and 60
(2025-01-03T12:00Z, receiving the final 12:00 grid), not exactly one window
keyed 36 as claimed. -/
theorem diary_c2_two_windows_cex :
    (diary_prec_12z c2Input).map Prod.fst = [36, 60] ∧
    (diary_prec_12z c2Input).map Prod.fst ≠ [36] := by
  constructor
  · decide
  · decide

/-- C2 amended: on the input range 12:00 Jan 2 .. 11:00 Jan 3 (hours 36..59
since the epoch), the aggregator produces exactly one window, keyed
2025-01-02T12:00Z, in which every cell equals 24. -/
theorem diary_shifted_single_window :
    diary_prec_12z c2ShiftedInput = [(36, [24, 24])] := by
  have hk : diaryKeys c2ShiftedInput = [36] := by decide
  have hf : c2ShiftedInput.filter (fun p => refTime p.1 == 36) = c2ShiftedInput := by
    decide
  have hm : c2ShiftedInput.map Prod.snd = List.replicate 24 [1, 1] := by decide
  have hs : sumGrids (List.replicate 24 ([1, 1] : List ℚ)) = [24, 24] := by
    norm_num [sumGrids, List.replicate, List.zipWith]
  simp only [diary_prec_12z, hk, List.map_cons, List.map_nil, groupSum, hf, hm, hs]

/-! ## C1: a run with zero successful hours -/

/-- C1: when every hour in the requested range fails to fetch or parse, the
accumulated collection is empty and the run ends (with an uncaught NameError
on the never-assigned concatenation result) without ever invoking the
temporal aggregation step and without writing any output artifact. -/
theorem runPipeline_all_failed (fetched : List (Option (Int × List ℚ)))
    (h : ∀ x ∈ fetched, x = none) :
    (runPipeline fetched).aggInvoked = false ∧
    (runPipeline fetched).outputWritten = false ∧
    (runPipeline fetched).daily = none ∧
    (runPipeline fetched).failure.isSome = true := by
  have hempty : ∀ l : List (Option (Int × List ℚ)),
      (∀ x ∈ l, x = none) → l.filterMap id = [] := by
    intro l
    induction l with
    | nil => intro _; rfl
    | cons a t ih =>
      intro hl
      have ha := hl a (List.mem_cons_self a t)
      subst ha
      simpa using ih fun x hx => hl x (List.mem_cons_of_mem _ hx)
  simp [runPipeline, hempty fetched h]

/-- Witness for C1: a two-hour range in which both hours failed. -/
theorem runPipeline_all_failed_witness :
    (∀ x ∈ ([none, none] : List (Option (Int × List ℚ))), x = none) ∧
    ((runPipeline [none, none]).aggInvoked = false ∧
     (runPipeline [none, none]).outputWritten = false ∧
     (runPipeline [none, none]).daily = none ∧
     (runPipeline [none, none]).failure.isSome = true) :=
  ⟨by decide, runPipeline_all_failed [none, none] (by decide)⟩

/-! ## C10: non-200 download leaves a stale file in place -/

/-- C10: on a non-200 HTTP status the download raises nothing, writes and
removes nothing, and still returns the target path; the per-hour step then
opens whatever already sits at that path, so a file left by a previous run
is parsed as the current hour's data instead of the hour being skipped. -/
theorem download_non200_stale (fs : List (String × String)) (date body : String)
    (status : Nat) (parse : String → Option (Int × List ℚ)) (stale : String)
    (h200 : status ≠ 200) (hstale : fs.lookup (mergeFilename date) = some stale) :
    download_merge_cptec fs date status body = (fs, mergeFilename date) ∧
    processHour fs date status body parse = (fs, parse stale) := by
  have hd : download_merge_cptec fs date status body = (fs, mergeFilename date) := by
    simp [download_merge_cptec, h200]
  refine ⟨hd, ?_⟩
  simp [processHour, hd, hstale]

/-- Witness for C10: a 404 response for hour 2025-01-02T00Z with the target
path already holding bytes from a previous run. -/
theorem download_non200_stale_witness :
    (404 ≠ 200) ∧
    staleFS.lookup (mergeFilename "2025010200") = some "stale-bytes" ∧
    (download_merge_cptec staleFS "2025010200" 404 "fresh-bytes" =
        (staleFS, mergeFilename "2025010200") ∧
      processHour staleFS "2025010200" 404 "fresh-bytes"
          (fun c => some (0, [(c.length : ℚ)])) =
        (staleFS, some (0, [("stale-bytes".length : ℚ)]))) :=
  ⟨by decide, by decide,
    download_non200_stale staleFS "2025010200" "fresh-bytes" 404
      (fun c => some (0, [(c.length : ℚ)])) "stale-bytes" (by decide) (by decide)⟩

/-! ## C8: the capital resolver -/

/-- C8: a boundary row is kept by the capital resolver exactly when its
region code is in the mapping and its name equals the mapped name; and for
any mapped region the number of kept rows for that region equals the number
of dataset rows matching the (code, name) pair exactly, so one exact match
yields exactly one polygon and a mismatched name yields zero, silently. -/
theorem extract_capitals_match_spec (gdf : List Muni)
    (dict : List (String × String)) :
    (∀ r : Muni, r ∈ extract_capitals_from_shapefile gdf dict ↔
        r ∈ gdf ∧ ∃ n, dict.lookup r.sigla = some n ∧ r.nm = n) ∧
    (∀ u n, dict.lookup u = some n →
        (extract_capitals_from_shapefile gdf dict).countP (fun r => r.sigla == u) =
          gdf.countP (fun r => r.sigla == u && r.nm == n)) := by
  constructor
  · intro r
    rw [extract_capitals_from_shapefile, List.mem_filter]
    constructor
    · rintro ⟨hr, hp⟩
      refine ⟨hr, ?_⟩
      revert hp
      cases hld : dict.lookup r.sigla with
      | none => intro hp; simp at hp
      | some n => intro hp; exact ⟨n, rfl, by simpa using hp⟩
    · rintro ⟨hr, n, hln, hnm⟩
      refine ⟨hr, ?_⟩
      rw [hln]
      simpa using hnm
  · intro u n hlu
    rw [extract_capitals_from_shapefile, List.countP_filter]
    apply List.countP_congr
    intro r _
    cases hru : (r.sigla == u) with
    | false => simp [hru]
    | true =>
      have hs : r.sigla = u := by simpa using hru
      rw [hs, hlu]

/-- Witness for C8: on the concrete dataset gdf8 with mapping dict8, the SP
row is kept exactly once and the mismatched RJ region yields zero rows. -/
theorem extract_capitals_match_spec_witness :
    dict8.lookup "RJ" = some "Rio de Janeiro" ∧
    (extract_capitals_from_shapefile gdf8 dict8).countP (fun r => r.sigla == "RJ") =
      gdf8.countP (fun r => r.sigla == "RJ" && r.nm == "Rio de Janeiro") ∧
    (extract_capitals_from_shapefile gdf8 dict8).countP (fun r => r.sigla == "SP") = 1 ∧
    (extract_capitals_from_shapefile gdf8 dict8).countP (fun r => r.sigla == "RJ") = 0 :=
  ⟨by decide,
    (extract_capitals_match_spec gdf8 dict8).2 "RJ" "Rio de Janeiro" (by decide),
    by decide, by decide⟩

/-! ## C4: mutation of the daily field by masking -/

/-- State threaded through the per-capital loop keeps the daily field's
time axis, spatial axes and cells unchanged (only CRS metadata is touched). -/
theorem extractStep_foldl_field (g : List Muni) :
    ∀ (caps : List String) (p : List (String × List (Int × ℚ)) × DailyField),
      (caps.foldl (extractStep g) p).2.ref_time = p.2.ref_time ∧
      (caps.foldl (extractStep g) p).2.latitude = p.2.latitude ∧
      (caps.foldl (extractStep g) p).2.longitude = p.2.longitude ∧
      (caps.foldl (extractStep g) p).2.prec = p.2.prec := by
  intro caps
  induction caps with
  | nil => intro p; exact ⟨rfl, rfl, rfl, rfl⟩
  | cons c t ih =>
    intro p
    rw [List.foldl_cons]
    exact ih (extractStep g p c)

/-- C4 counterexample: masking does not leave the input daily dataset
unchanged; on a field carrying no CRS yet, the in-place write_crs performed
by mask_data makes the post-call input differ from the original. -/
theorem mask_data_mutates_input_cex : (mask_data ds4 geo4).2 ≠ ds4 := by
  intro h
  have hc := congrArg DailyField.crs h
  simp [mask_data, write_crs, set_spatial_dims, ds4] at hc

/-- C4 amended: masking (and the whole per-region extraction loop) leaves
the daily field's window keys, spatial axes and every cell value unchanged;
the only in-place effect is writing the epsg:4326 CRS metadata into the
input, so the dataset object is not literally immutable. -/
theorem mask_data_preserves_values (ds : DailyField) (geo gdf : List Muni) :
    ((mask_data ds geo).2.ref_time = ds.ref_time ∧
     (mask_data ds geo).2.latitude = ds.latitude ∧
     (mask_data ds geo).2.longitude = ds.longitude ∧
     (mask_data ds geo).2.prec = ds.prec ∧
     (mask_data ds geo).2.crs = some "epsg:4326") ∧
    ((extract_capitals_timeseries ds gdf).2.ref_time = ds.ref_time ∧
     (extract_capitals_timeseries ds gdf).2.latitude = ds.latitude ∧
     (extract_capitals_timeseries ds gdf).2.longitude = ds.longitude ∧
     (extract_capitals_timeseries ds gdf).2.prec = ds.prec) := by
  refine ⟨⟨rfl, rfl, rfl, rfl, rfl⟩, ?_⟩
  exact extractStep_foldl_field gdf (gdf.map fun r => r.nm) ([], ds)

/-! ## C9: full extent preserved by the default clip -/

/-- Indexing a zip: the element at i exists exactly when both source lists
have an element at i, and is then the pair of those elements. -/
theorem zip_getElem? {γ α : Type} :
    ∀ (a : List γ) (b : List α) (i : Nat),
      (a.zip b)[i]? = a[i]?.bind fun x => (b[i]?).map fun y => (x, y) := by
  intro a
  induction a with
  | nil => intro b i; simp
  | cons x xs ih =>
    intro b i
    cases b with
    | nil => cases i <;> simp
    | cons y ys =>
      cases i with
      | zero => simp
      | succ n => simpa using ih ys n

/-- C9: mask_data (which calls clip with drop=False) preserves the time
axis, both spatial axes and the spatial shape of every slice, and maps each
cell to itself when inside the polygon set and to missing when outside. -/
theorem mask_data_preserves_extent (ds : DailyField) (geo : List Muni)
    (hs : ∀ s ∈ ds.prec, s.length = ds.latitude.length ∧
        ∀ r ∈ s, r.length = ds.longitude.length) :
    (mask_data ds geo).1.ref_time = ds.ref_time ∧
    (mask_data ds geo).1.latitude = ds.latitude ∧
    (mask_data ds geo).1.longitude = ds.longitude ∧
    (∀ s ∈ (mask_data ds geo).1.prec, s.length = ds.latitude.length ∧
        ∀ r ∈ s, r.length = ds.longitude.length) ∧
    (∀ t i j la lo, ds.latitude[i]? = some la → ds.longitude[j]? = some lo →
        cellAt (mask_data ds geo).1 t i j =
          (cellAt ds t i j).map fun v => if inMask geo la lo then v else none) := by
  have hm : (mask_data ds geo).1.prec = ds.prec.map fun slice =>
      (ds.latitude.zip slice).map fun p =>
        (ds.longitude.zip p.2).map fun q =>
          if inMask geo p.1 q.1 then q.2 else none := rfl
  refine ⟨rfl, rfl, rfl, ?_, ?_⟩
  · intro s hsm
    rw [hm] at hsm
    obtain ⟨slice, hslice, rfl⟩ := List.mem_map.mp hsm
    constructor
    · rw [List.length_map, List.length_zip, (hs slice hslice).1, min_self]
    · intro r hr
      obtain ⟨p, hp, rfl⟩ := List.mem_map.mp hr
      have hrow : p.2 ∈ slice := by
        obtain ⟨la, row⟩ := p
        exact (List.of_mem_zip hp).2
      rw [List.length_map, List.length_zip, (hs slice hslice).2 p.2 hrow, min_self]
  · intro t i j la lo hla hlo
    cases ht : ds.prec[t]? with
    | none => simp [cellAt, hm, List.getElem?_map, ht]
    | some slice =>
      cases hi : slice[i]? with
      | none => simp [cellAt, hm, List.getElem?_map, ht, zip_getElem?, hla, hi]
      | some row =>
        cases hj : row[j]? with
        | none =>
          simp [cellAt, hm, List.getElem?_map, ht, zip_getElem?, hla, hi, hlo, hj]
        | some v =>
          simp [cellAt, hm, List.getElem?_map, ht, zip_getElem?, hla, hi, hlo, hj]

/-- Witness for C9: on the concrete 2 x 2 field ds9 and quadrant polygon
geo9, the axes survive, the outside corner is nulled and the inside corner
keeps its value. -/
theorem mask_data_preserves_extent_witness :
    (∀ s ∈ ds9.prec, s.length = ds9.latitude.length ∧
        ∀ r ∈ s, r.length = ds9.longitude.length) ∧
    (mask_data ds9 geo9).1.latitude = ds9.latitude ∧
    (mask_data ds9 geo9).1.longitude = ds9.longitude ∧
    cellAt (mask_data ds9 geo9).1 0 0 0 = some none ∧
    cellAt (mask_data ds9 geo9).1 0 1 1 = some (some 4) := by
  have h := mask_data_preserves_extent ds9 geo9 (by decide)
  refine ⟨by decide, h.2.1, h.2.2.1, ?_, ?_⟩
  · have hc := h.2.2.2.2 0 0 0 (-1) (-1) (by decide) (by decide)
    rw [hc]
    decide
  · have hc := h.2.2.2.2 0 1 1 1 1 (by decide) (by decide)
    rw [hc]
    decide

/-! ## C3: region whose mapped name is absent from the dataset -/

/-- Columns accumulated by the per-capital loop are the starting columns
followed by one column per processed capital name, in order. -/
theorem extractStep_foldl_cols (g : List Muni) :
    ∀ (caps : List String) (p : List (String × List (Int × ℚ)) × DailyField),
      (caps.foldl (extractStep g) p).1.map Prod.fst = p.1.map Prod.fst ++ caps := by
  intro caps
  induction caps with
  | nil => intro p; simp
  | cons c t ih =>
    intro p
    rw [List.foldl_cons, ih (extractStep g p c)]
    simp [extractStep]

/-- The final wide table has exactly one column per resolved polygon row,
named by that row's municipality name, in dataset order. -/
theorem timeseries_columns (ds0 : DailyField) (gdfCaps : List Muni) :
    (extract_capitals_timeseries ds0 gdfCaps).1.cols.map Prod.fst =
      gdfCaps.map fun r => r.nm := by
  have hconcat : ∀ cols : List (String × List (Int × ℚ)),
      (concatOuter cols).cols.map Prod.fst = cols.map Prod.fst := by
    intro cols
    simp [concatOuter]
  have hfold := extractStep_foldl_cols gdfCaps (gdfCaps.map fun r => r.nm) ([], ds0)
  calc (extract_capitals_timeseries ds0 gdfCaps).1.cols.map Prod.fst
      = ((gdfCaps.map fun r => r.nm).foldl (extractStep gdfCaps)
          ([], ds0)).1.map Prod.fst := hconcat _
    _ = gdfCaps.map fun r => r.nm := by simpa using hfold

/-- C3 counterexample: with the mapping sending RJ to a name absent from
the boundary dataset, the final table's columns are exactly the matched
capital names and contain no column at all for the missing region, refuting
the claimed present-but-all-null column. -/
theorem timeseries_missing_name_cex :
    (extract_capitals_timeseries ds4 (extract_capitals_from_shapefile gdf8 dict8)).1.cols.map
        Prod.fst = ["Sao Paulo"] ∧
    "Rio de Janeiro" ∉ (extract_capitals_timeseries ds4
        (extract_capitals_from_shapefile gdf8 dict8)).1.cols.map Prod.fst := by
  constructor
  · decide
  · decide

/-- C3 amended: a target region whose mapped capital name does not exist in
the boundary dataset is silently dropped by the resolver, so the final
Output Table contains no column for it at all (and no error is raised);
the table's columns are exactly the resolved rows' names. -/
theorem timeseries_missing_name_column_absent (ds0 : DailyField)
    (gdf : List Muni) (dict : List (String × String)) (n : String)
    (habs : ∀ r ∈ gdf, r.nm = n → ¬ dict.lookup r.sigla = some n) :
    (extract_capitals_timeseries ds0 (extract_capitals_from_shapefile gdf dict)).1.cols.map
        Prod.fst = (extract_capitals_from_shapefile gdf dict).map (fun r => r.nm) ∧
    n ∉ (extract_capitals_timeseries ds0 (extract_capitals_from_shapefile gdf dict)).1.cols.map
        Prod.fst := by
  have hcols := timeseries_columns ds0 (extract_capitals_from_shapefile gdf dict)
  refine ⟨hcols, ?_⟩
  rw [hcols]
  intro hmem
  obtain ⟨r, hr, hnm⟩ := List.mem_map.mp hmem
  rw [extract_capitals_from_shapefile] at hr
  obtain ⟨hrg, hp⟩ := List.mem_filter.mp hr
  revert hp
  cases hld : dict.lookup r.sigla with
  | none => intro hp; simp at hp
  | some m =>
    intro hp
    have hm : r.nm = m := by simpa using hp
    have hmn : m = n := by rw [← hm, hnm]
    exact habs r hrg hnm (by rw [hld, hmn])

/-- Witness for C3 at the concrete dataset gdf8, mapping dict8 and daily
field ds4: the missing Rio de Janeiro column is absent, not all-null. -/
theorem timeseries_missing_name_column_absent_witness :
    (∀ r ∈ gdf8, r.nm = "Rio de Janeiro" →
        ¬ dict8.lookup r.sigla = some "Rio de Janeiro") ∧
    ((extract_capitals_timeseries ds4 (extract_capitals_from_shapefile gdf8 dict8)).1.cols.map
        Prod.fst = (extract_capitals_from_shapefile gdf8 dict8).map (fun r => r.nm) ∧
     "Rio de Janeiro" ∉ (extract_capitals_timeseries ds4
        (extract_capitals_from_shapefile gdf8 dict8)).1.cols.map Prod.fst) :=
  ⟨by decide,
    timeseries_missing_name_column_absent ds4 gdf8 dict8 "Rio de Janeiro" (by decide)⟩

/-! ## C5: the coordinate normalizer -/

/-- The computable rational floor agrees with the floor of the FloorRing. -/
theorem ratFloor_eq_floor (q : ℚ) : (Rat.floor q : ℤ) = ⌊q⌋ := by
  rw [Rat.floor_def', ← Rat.floor_def]

/-- Python modulo by a positive modulus lands in [0, m). -/
theorem pymod_nonneg_lt (x m : ℚ) (hm : 0 < m) : 0 ≤ pymod x m ∧ pymod x m < m := by
  have hfl : ((Rat.floor (x / m) : ℤ) : ℚ) = ((⌊x / m⌋ : ℤ) : ℚ) := by
    exact_mod_cast ratFloor_eq_floor (x / m)
  unfold pymod
  rw [hfl]
  have h1 : ((⌊x / m⌋ : ℤ) : ℚ) ≤ x / m := Int.floor_le _
  have h2 : x / m < ((⌊x / m⌋ : ℤ) : ℚ) + 1 := Int.lt_floor_add_one _
  have h3 : ((⌊x / m⌋ : ℤ) : ℚ) * m ≤ x := by
    calc ((⌊x / m⌋ : ℤ) : ℚ) * m ≤ (x / m) * m :=
          mul_le_mul_of_nonneg_right h1 (le_of_lt hm)
      _ = x := div_mul_cancel₀ x (ne_of_gt hm)
  have h4 : x < (((⌊x / m⌋ : ℤ) : ℚ) + 1) * m := by
    have h5 := mul_lt_mul_of_pos_right h2 hm
    rwa [div_mul_cancel₀ x (ne_of_gt hm)] at h5
  constructor
  · nlinarith
  · nlinarith

/-- Every remapped longitude lands in [-180, 180). -/
theorem remapLon_mem (l : ℚ) : -180 ≤ remapLon l ∧ remapLon l < 180 := by
  have h := pymod_nonneg_lt (l + 180) 360 (by norm_num)
  unfold remapLon
  constructor
  · linarith [h.1]
  · linarith [h.2]

/-- The remap is injective on [0, 360). -/
theorem remapLon_injOn (a b : ℚ) (ha : 0 ≤ a ∧ a < 360) (hb : 0 ≤ b ∧ b < 360)
    (h : remapLon a = remapLon b) : a = b := by
  unfold remapLon pymod at h
  set ka := Rat.floor ((a + 180) / 360) with hka
  set kb := Rat.floor ((b + 180) / 360) with hkb
  have hdiff : a - b = 360 * ((ka : ℚ) - (kb : ℚ)) := by linarith
  have h1 : ((ka - kb : ℤ) : ℚ) < 1 := by push_cast; linarith [ha.1, hb.2]
  have h2 : (-1 : ℚ) < ((ka - kb : ℤ) : ℚ) := by push_cast; linarith [ha.2, hb.1]
  have h1' : (ka - kb : ℤ) < 1 := by exact_mod_cast h1
  have h2' : (-1 : ℤ) < (ka - kb : ℤ) := by exact_mod_cast h2
  have hk : ka = kb := by omega
  rw [hk] at hdiff
  have : a - b = 0 := by rw [hdiff]; ring
  linarith

/-- Keys of the sorted pair list are sorted in weakly ascending order. -/
theorem sortPairs_key_sorted {α : Type} (l : List (ℚ × α)) :
    ((sortPairs l).map Prod.fst).Sorted (· ≤ ·) := by
  have h : (sortPairs l).Sorted keyLE := List.sorted_insertionSort keyLE l
  exact List.Pairwise.map Prod.fst (fun a b hab => hab) h

/-- Sorting the pairs permutes them. -/
theorem sortPairs_perm {α : Type} (l : List (ℚ × α)) : (sortPairs l).Perm l :=
  List.perm_insertionSort keyLE l

/-- The keys of a zip are a prefix of the first list. -/
theorem map_fst_zip_take {γ α : Type} :
    ∀ (a : List γ) (b : List α), (a.zip b).map Prod.fst = a.take b.length := by
  intro a
  induction a with
  | nil => intro b; simp
  | cons x xs ih =>
    intro b
    cases b with
    | nil => simp
    | cons y ys => simpa using ih ys

/-- Sorting pairs preserves key distinctness. -/
theorem sortPairs_keys_nodup {α : Type} (l : List (ℚ × α))
    (h : (l.map Prod.fst).Nodup) : ((sortPairs l).map Prod.fst).Nodup :=
  (((sortPairs_perm l).map Prod.fst).nodup_iff).mpr h

/-- A key of the sorted pair list is a key of the original pair list. -/
theorem sortPairs_keys_mem {α : Type} (l : List (ℚ × α)) (x : ℚ)
    (hx : x ∈ (sortPairs l).map Prod.fst) : x ∈ l.map Prod.fst :=
  (((sortPairs_perm l).map Prod.fst).mem_iff).mp hx

/-- C5 counterexample: on a grid whose longitude axis is [180, 180] (no
value exceeds 180, so the remap of utils.fix_coordinates never fires), the
output longitude axis is not contained in [-180, 180) and is not strictly
ascending, refuting the claim for arbitrary input ranges. -/
theorem fix_coordinates_range_cex :
    ¬ ((∀ l ∈ (fix_coordinates cexGrid).longitude, -180 ≤ l ∧ l < 180) ∧
       (fix_coordinates cexGrid).longitude.Sorted (· < ·)) := by
  decide

/-- C5 amended: on a grid whose longitudes are pairwise distinct and lie in
the source convention range [0, 360), and whose latitudes are pairwise
distinct, the normalizer emits longitudes in [-180, 180] — strictly below
180 whenever some input longitude exceeds 180 and the remap fires — and
sorts both axes strictly ascending. -/
theorem fix_coordinates_normalized_sorted (g : Grid)
    (hrange : ∀ l ∈ g.longitude, 0 ≤ l ∧ l < 360)
    (hlonnd : g.longitude.Nodup) (hlatnd : g.latitude.Nodup) :
    (∀ l ∈ (fix_coordinates g).longitude, -180 ≤ l ∧ l ≤ 180) ∧
    ((∃ l0 ∈ g.longitude, 180 < l0) →
      ∀ l ∈ (fix_coordinates g).longitude, l < 180) ∧
    (fix_coordinates g).longitude.Sorted (· < ·) ∧
    (fix_coordinates g).latitude.Sorted (· < ·) := by
  have hlon_def : (fix_coordinates g).longitude =
      (sortPairs ((lonAfterRemap g).zip g.prec.transpose)).map Prod.fst := rfl
  have hlat_def : (fix_coordinates g).latitude =
      (sortPairs (g.latitude.zip
        ((sortPairs ((lonAfterRemap g).zip g.prec.transpose)).map
          Prod.snd).transpose)).map Prod.fst := rfl
  have hmem : ∀ l ∈ (fix_coordinates g).longitude, l ∈ lonAfterRemap g := by
    intro l hl
    rw [hlon_def] at hl
    have h1 := sortPairs_keys_mem _ l hl
    rw [map_fst_zip_take] at h1
    exact List.mem_of_mem_take h1
  have hnd1 : (lonAfterRemap g).Nodup := by
    unfold lonAfterRemap
    split
    · exact List.Nodup.map_on
        (fun x hx y hy hxy => remapLon_injOn x y (hrange x hx) (hrange y hy) hxy)
        hlonnd
    · exact hlonnd
  refine ⟨?_, ?_, ?_, ?_⟩
  · intro l hl
    have h1 := hmem l hl
    unfold lonAfterRemap at h1
    by_cases hc : g.longitude.any fun l => decide (180 < l)
    · rw [if_pos hc] at h1
      obtain ⟨x, hx, rfl⟩ := List.mem_map.mp h1
      have h2 := remapLon_mem x
      exact ⟨h2.1, le_of_lt h2.2⟩
    · rw [if_neg hc] at h1
      have hle : l ≤ 180 := by
        by_contra hgt
        exact hc (List.any_eq_true.mpr ⟨l, h1, by simpa using not_le.mp hgt⟩)
      exact ⟨by linarith [(hrange l h1).1], hle⟩
  · rintro ⟨l0, hl0, hgt⟩ l hl
    have h1 := hmem l hl
    unfold lonAfterRemap at h1
    rw [if_pos (List.any_eq_true.mpr ⟨l0, hl0, by simpa using hgt⟩)] at h1
    obtain ⟨x, hx, rfl⟩ := List.mem_map.mp h1
    exact (remapLon_mem x).2
  · rw [hlon_def]
    refine List.Sorted.lt_of_le (sortPairs_key_sorted _) ?_
    refine sortPairs_keys_nodup _ ?_
    rw [map_fst_zip_take]
    exact List.Nodup.sublist (List.take_sublist _ _) hnd1
  · rw [hlat_def]
    refine List.Sorted.lt_of_le (sortPairs_key_sorted _) ?_
    refine sortPairs_keys_nodup _ ?_
    rw [map_fst_zip_take]
    exact List.Nodup.sublist (List.take_sublist _ _) hlatnd

/-- Witness for C5 on the concrete scrambled grid g5: longitudes 350, 10,
200 become -160, -10, 10 (ascending, inside [-180, 180)) and latitudes are
re-sorted ascending. -/
theorem fix_coordinates_normalized_sorted_witness :
    (∀ l ∈ g5.longitude, 0 ≤ l ∧ l < 360) ∧ g5.longitude.Nodup ∧ g5.latitude.Nodup ∧
    ((∀ l ∈ (fix_coordinates g5).longitude, -180 ≤ l ∧ l ≤ 180) ∧
     ((∃ l0 ∈ g5.longitude, 180 < l0) →
       ∀ l ∈ (fix_coordinates g5).longitude, l < 180) ∧
     (fix_coordinates g5).longitude.Sorted (· < ·) ∧
     (fix_coordinates g5).latitude.Sorted (· < ·)) :=
  ⟨by decide, by decide, by decide,
    fix_coordinates_normalized_sorted g5 (by decide) (by decide) (by decide)⟩
